import Mathlib

/-!
Verification of the two core subsystems of the hero-page editor:

1. the debounced undo/redo history manager (the second revision of the
   useHistory hook, the one with a `lastSavedStateRef`, a pending debounce
   timer and a version counter that invalidates stale timer callbacks);
2. the template codec (`parseTemplateFile` / the envelope built by
   `downloadTemplate` in utils.ts).

The embedding is shallow:

* JSON values produced by `JSON.parse` are modelled by `JsonVal`.  Numbers are
  carried as integers, since the code only looks at them through `typeof`
  checks and otherwise passes them through verbatim.  A failed `JSON.parse`
  is modelled by passing `none` to `parseTemplateFile`.
* The history manager's mutable cell plus its three refs are collected into a
  record `HistSt`.  Equality on the state type `T` models
  `JSON.stringify`-equality of application states.  The 500ms debounce timer
  is modelled untimed: `pending` records the scheduled callback (the captured
  version number and captured resolved state), and a separate `fire` event
  executes it; traces without `fire` between commits model bursts faster than
  the debounce interval, traces with `fire` after each commit model commits
  spaced further apart than the interval.
-/

namespace MarvelRivals

/-- JSON values as produced by `JSON.parse`.  Objects are association lists of
string keys (an object in memory has distinct keys; lookups take the first
binding). -/
inductive JsonVal : Type where
  | null : JsonVal
  | bool : Bool → JsonVal
  | num : Int → JsonVal
  | str : String → JsonVal
  | arr : List JsonVal → JsonVal
  | obj : List (String × JsonVal) → JsonVal
deriving Repr

/-- JavaScript truth-test `!v`: `null`, `false`, `0` and the empty string are
falsy; arrays and objects are always truthy. -/
def isFalsy : JsonVal → Bool
  | .null => true
  | .bool b => !b
  | .num n => n == 0
  | .str s => s == ""
  | .arr _ => false
  | .obj _ => false

/-- JavaScript `typeof v === "object"`: true for `null`, arrays and objects. -/
def typeofObject : JsonVal → Bool
  | .null => true
  | .arr _ => true
  | .obj _ => true
  | _ => false

/-- Whether the value is a plain object (not `null`, not an array). -/
def isObj : JsonVal → Bool
  | .obj _ => true
  | _ => false

/-- First binding of a key in an association list. -/
def lookupAssoc : List (String × JsonVal) → String → Option JsonVal
  | [], _ => none
  | (k1, v1) :: rest, key => if k1 = key then some v1 else lookupAssoc rest key

/-- Property read `o[k]`: `none` models the JavaScript `undefined` (missing
key, or property access on a non-object such as an array). -/
def jget : JsonVal → String → Option JsonVal
  | .obj fs, k => lookupAssoc fs k
  | _, _ => none

/-- Replace the first binding of a key, or append a fresh binding at the end
(JavaScript property assignment adds new keys at the end). -/
def setAssoc (key : String) (v : JsonVal) : List (String × JsonVal) → List (String × JsonVal)
  | [] => [(key, v)]
  | (k1, v1) :: rest => if k1 = key then (key, v) :: rest else (k1, v1) :: setAssoc key v rest

/-- Property write `o[k] = v`; on non-objects it is the identity (never
reached on the code paths modelled here). -/
def jset (o : JsonVal) (k : String) (v : JsonVal) : JsonVal :=
  match o with
  | .obj fs => .obj (setAssoc k v fs)
  | x => x

/-- Truth-test lifted to a possibly-`undefined` value: `undefined` is falsy. -/
def optFalsy : Option JsonVal → Bool
  | none => true
  | some v => isFalsy v

/-- The test `typeof x === "object"` on a possibly-`undefined` value. -/
def optTypeofObject : Option JsonVal → Bool
  | none => false
  | some v => typeofObject v

/-- The test `typeof x === "string"` on a possibly-`undefined` value. -/
def isStringOpt : Option JsonVal → Bool
  | some (.str _) => true
  | _ => false

/-- The test `typeof x === "number"` on a possibly-`undefined` value. -/
def isNumberOpt : Option JsonVal → Bool
  | some (.num _) => true
  | _ => false

/-- The test `Array.isArray x` on a possibly-`undefined` value. -/
def isArrayOpt : Option JsonVal → Bool
  | some (.arr _) => true
  | _ => false

/-- Negation of the rejection test `!x || typeof x !== "object"` used for
`ultimate`, `portraitSettings` and `heroInfoSettings` in `parseTemplateFile`. -/
def isTruthyObject (x : Option JsonVal) : Bool :=
  !optFalsy x && optTypeofObject x

/-- The default `ultimate` record substituted by `parseTemplateFile`. -/
def defaultUltimate : JsonVal :=
  .obj [("id", .str "default-ult"), ("name", .str "ULTIMATE"),
        ("description", .str "Ultimate ability description."),
        ("hotkey", .str "Q"), ("hotkeyConsole", .str "L1+R1")]

/-- JSON image of `getDefaultCropBounds()` from types.ts. -/
def defaultCropBounds : JsonVal :=
  .obj [("top", .num 0), ("left", .num 0), ("right", .num 0), ("bottom", .num 0)]

/-- JSON image of `getDefaultPortraitSettings()` from types.ts. -/
def defaultPortraitSettings : JsonVal :=
  .obj [("scale", .num 1), ("offsetX", .num 0), ("offsetY", .num 0),
        ("fadeAmount", .num 50), ("crop", defaultCropBounds)]

/-- JSON image of `getDefaultHeroInfoSettings()` from types.ts. -/
def defaultHeroInfoSettings : JsonVal :=
  .obj [("offsetX", .num 0), ("offsetY", .num 0)]

/-- One defensive-default step of `parseTemplateFile`: if the field `k` of `h`
already passes the type test `good` it is kept, otherwise it is overwritten
with the default `dflt`. -/
def fixField (h : JsonVal) (k : String) (good : Option JsonVal → Bool) (dflt : JsonVal) : JsonVal :=
  if good (jget h k) then h else jset h k dflt

/-- The sequence of in-place repairs `parseTemplateFile` applies to
`heroData`, in source order: the five collection fields, `ultimate`, the
three scalar fields, then the two settings objects. -/
def fixHeroData (h : JsonVal) : JsonVal :=
  let h1 := fixField h "attacks" isArrayOpt (.arr [])
  let h2 := fixField h1 "abilities" isArrayOpt (.arr [])
  let h3 := fixField h2 "passives" isArrayOpt (.arr [])
  let h4 := fixField h3 "teamUpAbilities" isArrayOpt (.arr [])
  let h5 := fixField h4 "additionalPages" isArrayOpt (.arr [])
  let h6 := fixField h5 "ultimate" isTruthyObject defaultUltimate
  let h7 := fixField h6 "role" isStringOpt (.str "Vanguard")
  let h8 := fixField h7 "difficulty" isNumberOpt (.num 1)
  let h9 := fixField h8 "bannerColor" isStringOpt (.str "#dc2626")
  let h10 := fixField h9 "portraitSettings" isTruthyObject defaultPortraitSettings
  fixField h10 "heroInfoSettings" isTruthyObject defaultHeroInfoSettings

/-- Embedding of `parseTemplateFile` from utils.ts.  The argument is the
result of `JSON.parse` on the file text, with `none` standing for text that is
not parseable as JSON (in which case the code throws "Invalid JSON file").
The checks and repairs follow the source line by line. -/
def parseTemplateFile (input : Option JsonVal) : Except String JsonVal :=
  match input with
  | none => .error "Invalid JSON file. Please select a valid template file."
  | some parsed =>
    if isFalsy parsed || !typeofObject parsed then
      .error "Invalid template format."
    else
      match jget parsed "heroData" with
      | none => .error "Template is missing hero data."
      | some heroData =>
        if isFalsy heroData || !typeofObject heroData then
          .error "Template is missing hero data."
        else if !isStringOpt (jget heroData "name") then
          .error "Template hero data is missing a name."
        else
          let t := if isNumberOpt (jget parsed "version") then parsed
                   else jset parsed "version" (.num 1)
          .ok (jset t "heroData" (fixHeroData heroData))

/-- The `name: heroData.name || 'Untitled Hero'` field of the envelope built
by `downloadTemplate`. -/
def nameField (h : JsonVal) : JsonVal :=
  match jget h "name" with
  | some v => if isFalsy v then .str "Untitled Hero" else v
  | none => .str "Untitled Hero"

/-- The ten display-settings keys the encoder copies into the envelope. -/
def displaySettingsKeys : List String :=
  ["showRoleBadge", "controlScheme", "showBackground", "customBackground",
   "foldSettings", "useImageBanner", "imageBannerSettings",
   "showUltimateLightning", "contentOffsetY", "abilitySpacing"]

/-- The allow-listed `displaySettings` subset of the envelope.  A key whose
value is `undefined` in the source settings is dropped, as `JSON.stringify`
drops `undefined`-valued properties. -/
def encodeDisplaySettings (ds : JsonVal) : JsonVal :=
  .obj (displaySettingsKeys.filterMap (fun k => (jget ds k).map (fun v => (k, v))))

/-- JSON image of the envelope object built by `downloadTemplate` in
utils.ts: version 1, fallback name, timestamp, the hero data verbatim, and
the allow-listed display-settings subset. -/
def buildTemplate (heroData displaySettings : JsonVal) (exportedAt : String) : JsonVal :=
  .obj [("version", .num 1), ("name", nameField heroData),
        ("exportedAt", .str exportedAt), ("heroData", heroData),
        ("displaySettings", encodeDisplaySettings displaySettings)]

/-- A hero-data value in which every field inspected by `parseTemplateFile`
is present with the type the `HeroData` interface declares, so that every
defensive repair is a no-op. -/
def wellTypedHeroData (h : JsonVal) : Bool :=
  isObj h &&
  isStringOpt (jget h "name") &&
  isArrayOpt (jget h "attacks") && isArrayOpt (jget h "abilities") &&
  isArrayOpt (jget h "passives") && isArrayOpt (jget h "teamUpAbilities") &&
  isArrayOpt (jget h "additionalPages") &&
  isTruthyObject (jget h "ultimate") &&
  isStringOpt (jget h "role") && isNumberOpt (jget h "difficulty") &&
  isStringOpt (jget h "bannerColor") &&
  isTruthyObject (jget h "portraitSettings") &&
  isTruthyObject (jget h "heroInfoSettings")

/-- The test `typeof x === "boolean"` on a possibly-`undefined` value. -/
def isBoolOpt : Option JsonVal → Bool
  | some (.bool _) => true
  | _ => false

/-- A display-settings value with every encoder-copied field present and of
the type the `DisplaySettings` interface declares. -/
def wellTypedDisplaySettings (ds : JsonVal) : Bool :=
  isObj ds &&
  isBoolOpt (jget ds "showRoleBadge") &&
  isStringOpt (jget ds "controlScheme") &&
  isBoolOpt (jget ds "showBackground") &&
  isStringOpt (jget ds "customBackground") &&
  isTruthyObject (jget ds "foldSettings") &&
  isBoolOpt (jget ds "useImageBanner") &&
  isTruthyObject (jget ds "imageBannerSettings") &&
  isBoolOpt (jget ds "showUltimateLightning") &&
  isNumberOpt (jget ds "contentOffsetY") &&
  isNumberOpt (jget ds "abilitySpacing")

/- ------------------------------------------------------------------ -/
/- History manager (second revision of useHistory, the debounced one). -/
/- ------------------------------------------------------------------ -/

/-- Full state of the debounced history manager: the React state triple
(`past`, `present`, `future`) plus the three refs — `lastSaved` models
`lastSavedStateRef`, `version` models `historyVersionRef`, and `pending`
models `debounceTimerRef` as the not-yet-fired callback together with the
version number and resolved state it captured when it was scheduled. -/
structure HistSt (T : Type) where
  past : List T
  present : T
  future : List T
  lastSaved : T
  version : Nat
  pending : Option (Nat × T)
deriving DecidableEq, Repr

/-- The state `useHistory(initialState)` starts from. -/
def initHist {T : Type} (s0 : T) : HistSt T :=
  { past := [], present := s0, future := [], lastSaved := s0,
    version := 0, pending := none }

/-- The `MAX_HISTORY_SIZE` constant. -/
def MAX_HISTORY_SIZE : Nat := 50

/-- JavaScript `xs.slice(-n)`: the last `n` elements. -/
def lastN {T : Type} (n : Nat) (xs : List T) : List T :=
  xs.drop (xs.length - n)

/-- Embedding of the debounced `setState` with the candidate value already
resolved (a functional updater resolves against `present` first).  Equality
on `T` models `JSON.stringify` equality.  If the candidate equals `present`
the call returns before touching the timer or any ref.  Otherwise the pending
timer is superseded by a fresh one capturing the current version and the
candidate, and the history triple is updated: a first change since the last
save pushes `present` onto `past` (trimmed to the last 50), a change inside
the grouping window only replaces `present`; both clear `future`. -/
def commit {T : Type} [DecidableEq T] (v : T) (s : HistSt T) : HistSt T :=
  if v = s.present then s
  else if s.present = s.lastSaved then
    { past := lastN MAX_HISTORY_SIZE (s.past ++ [s.present]),
      present := v, future := [],
      lastSaved := s.lastSaved, version := s.version,
      pending := some (s.version, v) }
  else
    { past := s.past, present := v, future := [],
      lastSaved := s.lastSaved, version := s.version,
      pending := some (s.version, v) }

/-- Embedding of `undo`: it always cancels the pending timer and increments
the version counter; with empty `past` the history triple is untouched,
otherwise the last `past` entry becomes `present`, the old `present` is
pushed onto the front of `future`, and `lastSavedStateRef` is updated. -/
def undo {T : Type} (s : HistSt T) : HistSt T :=
  match s.past.getLast? with
  | none => { s with pending := none, version := s.version + 1 }
  | some prev =>
    { past := s.past.dropLast, present := prev,
      future := s.present :: s.future,
      lastSaved := prev, version := s.version + 1, pending := none }

/-- Embedding of `redo`: symmetric to `undo`; note it appends to `past`
without trimming. -/
def redo {T : Type} (s : HistSt T) : HistSt T :=
  match s.future with
  | [] => { s with pending := none, version := s.version + 1 }
  | next :: rest =>
    { past := s.past ++ [s.present], present := next,
      future := rest, lastSaved := next,
      version := s.version + 1, pending := none }

/-- Embedding of `clearHistory`: cancels the timer, empties both stacks and
syncs `lastSavedStateRef` to `present` (the version counter is not bumped). -/
def clearHistory {T : Type} (s : HistSt T) : HistSt T :=
  { past := [], present := s.present, future := [],
    lastSaved := s.present, version := s.version, pending := none }

/-- Body of the scheduled timeout callback: when it runs it updates
`lastSavedStateRef` to the state it captured, but only if no undo/redo has
bumped the version counter since it was scheduled. -/
def fireBody {T : Type} (vv : Nat) (val : T) (s : HistSt T) : HistSt T :=
  if s.version = vv then { s with lastSaved := val } else s

/-- The pending debounce timer elapses and its callback runs. -/
def fireTimer {T : Type} (s : HistSt T) : HistSt T :=
  match s.pending with
  | none => s
  | some (vv, val) => { fireBody vv val s with pending := none }

/-- The events the manager reacts to: the four exported operations plus the
debounce timer elapsing. -/
inductive HistEv (T : Type) where
  | commit (v : T)
  | undo
  | redo
  | clear
  | fire
deriving Repr

/-- One event step of the manager. -/
def histStep {T : Type} [DecidableEq T] : HistEv T → HistSt T → HistSt T
  | .commit v, s => commit v s
  | .undo, s => undo s
  | .redo, s => redo s
  | .clear, s => clearHistory s
  | .fire, s => fireTimer s

/-- Run a sequence of events. -/
def runEvents {T : Type} [DecidableEq T] (evs : List (HistEv T)) (s : HistSt T) : HistSt T :=
  evs.foldl (fun s1 e => histStep e s1) s

/-- States reachable from the initial state by operations and timer
firings. -/
inductive Reachable {T : Type} [DecidableEq T] (s0 : T) : HistSt T → Prop where
  | init : Reachable s0 (initHist s0)
  | step (e : HistEv T) (s : HistSt T) : Reachable s0 s → Reachable s0 (histStep e s)

/-- Events for a sequence of commits each followed by a quiet period longer
than the debounce interval, so the scheduled timer fires after each commit. -/
def spacedEvents {T : Type} : List T → List (HistEv T)
  | [] => []
  | v :: rest => HistEv.commit v :: HistEv.fire :: spacedEvents rest

/-- The observable history triple of a manager state. -/
def histTriple {T : Type} (s : HistSt T) : List T × T × List T :=
  (s.past, s.present, s.future)

/-- Fifty-one distinct spaced commits (values 1..51) from initial state 0,
followed by fifty-one undos. -/
def spacedCexRun : HistSt Nat :=
  runEvents (List.replicate 51 HistEv.undo)
    (runEvents (spacedEvents ((List.range 51).map (fun i => (i + 1 : Nat))))
      (initHist 0))

/-- A concrete imported document: hero data with a name, a nonsensical but
well-typed difficulty, and everything else missing. -/
def sampleParsedDoc : JsonVal :=
  .obj [("heroData", .obj [("name", .str "Hero"), ("difficulty", .num 99)])]

/-- The decode of `sampleParsedDoc`. -/
def sampleDecoded : JsonVal :=
  ((parseTemplateFile (some sampleParsedDoc)).toOption).getD JsonVal.null

/-- A concrete imported document whose `displaySettings` is wrong-typed (a
string). -/
def frameParsedDoc : JsonVal :=
  .obj [("version", .num 1), ("displaySettings", .str "oops"),
        ("heroData", .obj [("name", .str "Hero")])]

/-- The decode of `frameParsedDoc`. -/
def frameDecoded : JsonVal :=
  ((parseTemplateFile (some frameParsedDoc)).toOption).getD JsonVal.null

/-- A concrete fully well-typed hero data value. -/
def sampleHero : JsonVal :=
  .obj [("name", .str "Hero"), ("role", .str "Duelist"), ("difficulty", .num 3),
        ("bannerColor", .str "#123456"),
        ("portraitSettings", .obj [("scale", .num 1)]),
        ("heroInfoSettings", .obj [("offsetX", .num 0)]),
        ("attacks", .arr [.obj [("id", .str "a1")]]),
        ("teamUpAbilities", .arr []),
        ("abilities", .arr [.obj [("id", .str "b1")]]),
        ("passives", .arr []),
        ("ultimate", .obj [("id", .str "u1")]),
        ("additionalPages", .arr [])]

/-- A concrete fully well-typed display-settings value. -/
def sampleSettings : JsonVal :=
  .obj [("showRoleBadge", .bool true), ("controlScheme", .str "PC"),
        ("showBackground", .bool false), ("customBackground", .str "bg"),
        ("foldSettings", .obj [("startY", .num 70)]),
        ("useImageBanner", .bool false),
        ("imageBannerSettings", .obj [("foldOffsetX", .num 0)]),
        ("showUltimateLightning", .bool true),
        ("contentOffsetY", .num 0), ("abilitySpacing", .num 16)]

/- ------------------------------------------------------------------ -/
/- Helper lemmas about the JSON embedding.                             -/
/- ------------------------------------------------------------------ -/

theorem lookup_setAssoc_self (fs : List (String × JsonVal)) (k : String) (v : JsonVal) :
    lookupAssoc (setAssoc k v fs) k = some v := by
  induction fs with
  | nil => simp [setAssoc, lookupAssoc]
  | cons p rest ih =>
    obtain ⟨k1, v1⟩ := p
    by_cases h : k1 = k
    · simp [setAssoc, lookupAssoc, h]
    · simp [setAssoc, lookupAssoc, h, ih]

theorem lookup_setAssoc_ne (fs : List (String × JsonVal)) (k k2 : String) (v : JsonVal)
    (hne : k2 ≠ k) :
    lookupAssoc (setAssoc k v fs) k2 = lookupAssoc fs k2 := by
  induction fs with
  | nil => simp [setAssoc, lookupAssoc, Ne.symm hne]
  | cons p rest ih =>
    obtain ⟨k1, v1⟩ := p
    by_cases h : k1 = k
    · subst h
      simp [setAssoc, lookupAssoc, Ne.symm hne]
    · simp [setAssoc, lookupAssoc, h, ih]

theorem setAssoc_eq_self (fs : List (String × JsonVal)) (k : String) (v : JsonVal)
    (h : lookupAssoc fs k = some v) : setAssoc k v fs = fs := by
  induction fs with
  | nil => simp [lookupAssoc] at h
  | cons p rest ih =>
    obtain ⟨k1, v1⟩ := p
    by_cases hk : k1 = k
    · subst hk
      simp [lookupAssoc] at h
      simp [setAssoc, h]
    · simp [lookupAssoc, hk] at h
      simp [setAssoc, hk, ih h]

theorem jget_some_isObj (o : JsonVal) (k : String) (v : JsonVal)
    (h : jget o k = some v) : isObj o = true := by
  cases o <;> simp_all [jget, isObj]

theorem isObj_jset (o : JsonVal) (k : String) (v : JsonVal) :
    isObj (jset o k v) = isObj o := by
  cases o <;> simp [jset, isObj]

theorem jget_jset_self (o : JsonVal) (k : String) (v : JsonVal) (ho : isObj o = true) :
    jget (jset o k v) k = some v := by
  cases o <;> simp [isObj] at ho
  simp [jset, jget, lookup_setAssoc_self]

theorem jget_jset_ne (o : JsonVal) (k k2 : String) (v : JsonVal) (hne : k2 ≠ k) :
    jget (jset o k v) k2 = jget o k2 := by
  cases o <;> simp [jset, jget]
  exact lookup_setAssoc_ne _ _ _ _ hne

theorem jset_id (o : JsonVal) (k : String) (v : JsonVal) (h : jget o k = some v) :
    jset o k v = o := by
  cases o <;> simp [jget] at h
  simp [jset, setAssoc_eq_self _ _ _ h]

theorem isObj_fixField (h : JsonVal) (k : String) (good : Option JsonVal → Bool)
    (dflt : JsonVal) : isObj (fixField h k good dflt) = isObj h := by
  unfold fixField
  split
  · rfl
  · exact isObj_jset _ _ _

theorem jget_fixField_self (h : JsonVal) (k : String) (good : Option JsonVal → Bool)
    (dflt : JsonVal) (ho : isObj h = true) :
    jget (fixField h k good dflt) k = if good (jget h k) then jget h k else some dflt := by
  by_cases hg : good (jget h k) = true
  · simp [fixField, hg]
  · simp [fixField, hg, jget_jset_self h k dflt ho]

theorem jget_fixField_ne (h : JsonVal) (k : String) (good : Option JsonVal → Bool)
    (dflt : JsonVal) (k2 : String) (hne : k2 ≠ k) :
    jget (fixField h k good dflt) k2 = jget h k2 := by
  unfold fixField
  split
  · rfl
  · exact jget_jset_ne _ _ _ _ hne

theorem isObj_fixHeroData (h : JsonVal) : isObj (fixHeroData h) = isObj h := by
  simp only [fixHeroData]
  simp [isObj_fixField]

theorem jget_fixField_cases (h : JsonVal) (k : String) (good : Option JsonVal → Bool)
    (dflt : JsonVal) (k2 : String) (ho : isObj h = true) :
    jget (fixField h k good dflt) k2 =
      if k2 = k then (if good (jget h k) then jget h k else some dflt) else jget h k2 := by
  by_cases e : k2 = k
  · subst e
    simp [jget_fixField_self _ _ _ _ ho]
  · simp [e, jget_fixField_ne _ _ _ _ _ e]

theorem isObj_of_isStringOpt_jget (o : JsonVal) (k : String)
    (h : isStringOpt (jget o k) = true) : isObj o = true := by
  cases o <;> simp_all [jget, isStringOpt, isObj]

/-- Inversion of a successful decode: the input was an object with a
`heroData` field that is itself an object, and the output is the input with
`version` defaulted when not a number and `heroData` repaired. -/
theorem parse_ok_inv (parsed doc : JsonVal)
    (hok : parseTemplateFile (some parsed) = .ok doc) :
    ∃ hd, jget parsed "heroData" = some hd ∧ isObj hd = true ∧ isObj parsed = true ∧
      doc = jset (if isNumberOpt (jget parsed "version") then parsed
                  else jset parsed "version" (.num 1)) "heroData" (fixHeroData hd) := by
  simp only [parseTemplateFile] at hok
  by_cases h1 : (isFalsy parsed || !typeofObject parsed) = true
  · rw [if_pos h1] at hok
    exact absurd hok (by simp)
  · rw [if_neg h1] at hok
    cases hhd : jget parsed "heroData" with
    | none => rw [hhd] at hok; simp at hok
    | some hd =>
      rw [hhd] at hok
      simp only at hok
      by_cases h2 : (isFalsy hd || !typeofObject hd) = true
      · rw [if_pos h2] at hok
        exact absurd hok (by simp)
      · rw [if_neg h2] at hok
        by_cases h3 : (!isStringOpt (jget hd "name")) = true
        · rw [if_pos h3] at hok
          exact absurd hok (by simp)
        · rw [if_neg h3] at hok
          simp only [Except.ok.injEq] at hok
          refine ⟨hd, rfl, ?_, jget_some_isObj _ _ _ hhd, hok.symm⟩
          simp only [Bool.not_eq_true] at h3
          exact isObj_of_isStringOpt_jget hd "name" (by
            cases hs : isStringOpt (jget hd "name")
            · rw [hs] at h3; simp at h3
            · rfl)

theorem falsy_reject_iff (p : JsonVal) :
    (isFalsy p || !typeofObject p) = true ↔ (p = JsonVal.null ∨ typeofObject p = false) := by
  cases p <;> simp [isFalsy, typeofObject]

/-- C3: `parseTemplateFile` throws exactly for unparseable text (`none`), a
parsed value that is null or fails the `typeof === "object"` test, a
`heroData` field that is missing, falsy or fails that test, or a
`heroData.name` that is not a string; every other input decodes without
throwing. -/
theorem decode_error_iff (input : Option JsonVal) :
    (∃ e, parseTemplateFile input = .error e) ↔
      input = none ∨
      ∃ p, input = some p ∧
        (p = JsonVal.null ∨ typeofObject p = false ∨
         jget p "heroData" = none ∨
         ∃ hd, jget p "heroData" = some hd ∧
           (isFalsy hd = true ∨ typeofObject hd = false ∨
            isStringOpt (jget hd "name") = false)) := by
  cases input with
  | none => simp [parseTemplateFile]
  | some p =>
    simp only [parseTemplateFile]
    by_cases h1 : (isFalsy p || !typeofObject p) = true
    · rw [if_pos h1]
      constructor
      · intro _
        refine Or.inr ⟨p, rfl, ?_⟩
        rcases (falsy_reject_iff p).mp h1 with h | h
        · exact Or.inl h
        · exact Or.inr (Or.inl h)
      · intro _
        exact ⟨"Invalid template format.", rfl⟩
    · rw [if_neg h1]
      have hnot : ¬(p = JsonVal.null ∨ typeofObject p = false) :=
        fun hc => h1 ((falsy_reject_iff p).mpr hc)
      cases hhd : jget p "heroData" with
      | none =>
        simp only []
        constructor
        · intro _
          exact Or.inr ⟨p, rfl, Or.inr (Or.inr (Or.inl hhd))⟩
        · intro _
          exact ⟨"Template is missing hero data.", rfl⟩
      | some hd =>
        simp only []
        by_cases h2 : (isFalsy hd || !typeofObject hd) = true
        · rw [if_pos h2]
          constructor
          · intro _
            refine Or.inr ⟨p, rfl, Or.inr (Or.inr (Or.inr ⟨hd, hhd, ?_⟩))⟩
            rcases (show isFalsy hd = true ∨ typeofObject hd = false by simpa using h2)
              with h | h
            · exact Or.inl h
            · exact Or.inr (Or.inl h)
          · intro _
            exact ⟨"Template is missing hero data.", rfl⟩
        · rw [if_neg h2]
          by_cases h3 : (!isStringOpt (jget hd "name")) = true
          · rw [if_pos h3]
            constructor
            · intro _
              exact Or.inr ⟨p, rfl, Or.inr (Or.inr (Or.inr
                ⟨hd, hhd, Or.inr (Or.inr (by simpa using h3))⟩))⟩
            · intro _
              exact ⟨"Template hero data is missing a name.", rfl⟩
          · rw [if_neg h3]
            constructor
            · rintro ⟨e, he⟩
              simp at he
            · rintro (h | ⟨p1, hp1, hcase⟩)
              · exact absurd h (by simp)
              · obtain rfl : p1 = p := by injection hp1.symm
                rcases hcase with h | h | h | ⟨hd1, hhd1, hbad⟩
                · exact absurd (Or.inl h) hnot
                · exact absurd (Or.inr h) hnot
                · rw [hhd] at h
                  exact Option.noConfusion h
                · obtain rfl : hd1 = hd := by
                    rw [hhd] at hhd1
                    exact (Option.some.inj hhd1).symm
                  rcases hbad with h | h | h
                  · exact (h2 (by simp [h])).elim
                  · exact (h2 (by simp [h])).elim
                  · exact (h3 (by simp [h])).elim

theorem jget_fixHeroData_attacks (h : JsonVal) (ho : isObj h = true) :
    jget (fixHeroData h) "attacks" =
      if isArrayOpt (jget h "attacks") then jget h "attacks" else some (.arr []) := by
  simp [fixHeroData, jget_fixField_cases, isObj_fixField, ho]

theorem jget_fixHeroData_abilities (h : JsonVal) (ho : isObj h = true) :
    jget (fixHeroData h) "abilities" =
      if isArrayOpt (jget h "abilities") then jget h "abilities" else some (.arr []) := by
  simp [fixHeroData, jget_fixField_cases, isObj_fixField, ho]

theorem jget_fixHeroData_passives (h : JsonVal) (ho : isObj h = true) :
    jget (fixHeroData h) "passives" =
      if isArrayOpt (jget h "passives") then jget h "passives" else some (.arr []) := by
  simp [fixHeroData, jget_fixField_cases, isObj_fixField, ho]

theorem jget_fixHeroData_teamUps (h : JsonVal) (ho : isObj h = true) :
    jget (fixHeroData h) "teamUpAbilities" =
      if isArrayOpt (jget h "teamUpAbilities") then jget h "teamUpAbilities"
      else some (.arr []) := by
  simp [fixHeroData, jget_fixField_cases, isObj_fixField, ho]

theorem jget_fixHeroData_pages (h : JsonVal) (ho : isObj h = true) :
    jget (fixHeroData h) "additionalPages" =
      if isArrayOpt (jget h "additionalPages") then jget h "additionalPages"
      else some (.arr []) := by
  simp [fixHeroData, jget_fixField_cases, isObj_fixField, ho]

theorem jget_fixHeroData_ultimate (h : JsonVal) (ho : isObj h = true) :
    jget (fixHeroData h) "ultimate" =
      if isTruthyObject (jget h "ultimate") then jget h "ultimate"
      else some defaultUltimate := by
  simp [fixHeroData, jget_fixField_cases, isObj_fixField, ho]

theorem jget_fixHeroData_role (h : JsonVal) (ho : isObj h = true) :
    jget (fixHeroData h) "role" =
      if isStringOpt (jget h "role") then jget h "role" else some (.str "Vanguard") := by
  simp [fixHeroData, jget_fixField_cases, isObj_fixField, ho]

theorem jget_fixHeroData_difficulty (h : JsonVal) (ho : isObj h = true) :
    jget (fixHeroData h) "difficulty" =
      if isNumberOpt (jget h "difficulty") then jget h "difficulty" else some (.num 1) := by
  simp [fixHeroData, jget_fixField_cases, isObj_fixField, ho]

theorem jget_fixHeroData_bannerColor (h : JsonVal) (ho : isObj h = true) :
    jget (fixHeroData h) "bannerColor" =
      if isStringOpt (jget h "bannerColor") then jget h "bannerColor"
      else some (.str "#dc2626") := by
  simp [fixHeroData, jget_fixField_cases, isObj_fixField, ho]

theorem jget_fixHeroData_portrait (h : JsonVal) (ho : isObj h = true) :
    jget (fixHeroData h) "portraitSettings" =
      if isTruthyObject (jget h "portraitSettings") then jget h "portraitSettings"
      else some defaultPortraitSettings := by
  simp [fixHeroData, jget_fixField_cases, isObj_fixField, ho]

theorem jget_fixHeroData_heroInfo (h : JsonVal) (ho : isObj h = true) :
    jget (fixHeroData h) "heroInfoSettings" =
      if isTruthyObject (jget h "heroInfoSettings") then jget h "heroInfoSettings"
      else some defaultHeroInfoSettings := by
  simp [fixHeroData, jget_fixField_cases, isObj_fixField, ho]

/-- C4: for every accepted input, field by field: each of the five collection
fields of the decoded hero data is `[]` exactly when the input field was not
an array and is the input field otherwise; `ultimate`, `portraitSettings` and
`heroInfoSettings` are the documented default records exactly when missing,
falsy or failing the `typeof === "object"` test and pass through otherwise;
`role`, `difficulty`, `bannerColor` get the documented defaults exactly when
absent or wrong-typed and pass through otherwise (however nonsensical the
value); `version` becomes 1 exactly when the input version was not a number
and passes through otherwise. -/
theorem decode_defaults (parsed doc hd : JsonVal)
    (hok : parseTemplateFile (some parsed) = .ok doc)
    (hhd : jget parsed "heroData" = some hd) :
    ∃ fixed, jget doc "heroData" = some fixed ∧
      ((isArrayOpt (jget hd "attacks") = false →
          jget fixed "attacks" = some (.arr [])) ∧
       (isArrayOpt (jget hd "attacks") = true →
          jget fixed "attacks" = jget hd "attacks")) ∧
      ((isArrayOpt (jget hd "abilities") = false →
          jget fixed "abilities" = some (.arr [])) ∧
       (isArrayOpt (jget hd "abilities") = true →
          jget fixed "abilities" = jget hd "abilities")) ∧
      ((isArrayOpt (jget hd "passives") = false →
          jget fixed "passives" = some (.arr [])) ∧
       (isArrayOpt (jget hd "passives") = true →
          jget fixed "passives" = jget hd "passives")) ∧
      ((isArrayOpt (jget hd "teamUpAbilities") = false →
          jget fixed "teamUpAbilities" = some (.arr [])) ∧
       (isArrayOpt (jget hd "teamUpAbilities") = true →
          jget fixed "teamUpAbilities" = jget hd "teamUpAbilities")) ∧
      ((isArrayOpt (jget hd "additionalPages") = false →
          jget fixed "additionalPages" = some (.arr [])) ∧
       (isArrayOpt (jget hd "additionalPages") = true →
          jget fixed "additionalPages" = jget hd "additionalPages")) ∧
      ((isTruthyObject (jget hd "ultimate") = false →
          jget fixed "ultimate" = some defaultUltimate) ∧
       (isTruthyObject (jget hd "ultimate") = true →
          jget fixed "ultimate" = jget hd "ultimate")) ∧
      ((isStringOpt (jget hd "role") = false →
          jget fixed "role" = some (.str "Vanguard")) ∧
       (isStringOpt (jget hd "role") = true →
          jget fixed "role" = jget hd "role")) ∧
      ((isNumberOpt (jget hd "difficulty") = false →
          jget fixed "difficulty" = some (.num 1)) ∧
       (isNumberOpt (jget hd "difficulty") = true →
          jget fixed "difficulty" = jget hd "difficulty")) ∧
      ((isStringOpt (jget hd "bannerColor") = false →
          jget fixed "bannerColor" = some (.str "#dc2626")) ∧
       (isStringOpt (jget hd "bannerColor") = true →
          jget fixed "bannerColor" = jget hd "bannerColor")) ∧
      ((isTruthyObject (jget hd "portraitSettings") = false →
          jget fixed "portraitSettings" = some defaultPortraitSettings) ∧
       (isTruthyObject (jget hd "portraitSettings") = true →
          jget fixed "portraitSettings" = jget hd "portraitSettings")) ∧
      ((isTruthyObject (jget hd "heroInfoSettings") = false →
          jget fixed "heroInfoSettings" = some defaultHeroInfoSettings) ∧
       (isTruthyObject (jget hd "heroInfoSettings") = true →
          jget fixed "heroInfoSettings" = jget hd "heroInfoSettings")) ∧
      ((isNumberOpt (jget parsed "version") = false →
          jget doc "version" = some (.num 1)) ∧
       (isNumberOpt (jget parsed "version") = true →
          jget doc "version" = jget parsed "version")) := by
  obtain ⟨hd1, hhd1, hobj, hpobj, hdoc⟩ := parse_ok_inv parsed doc hok
  have heq : hd = hd1 := by
    rw [hhd] at hhd1
    exact Option.some.inj hhd1
  subst heq
  have hto : isObj (if isNumberOpt (jget parsed "version") then parsed
      else jset parsed "version" (.num 1)) = true := by
    split
    · exact hpobj
    · rw [isObj_jset]; exact hpobj
  have hdocHero : jget doc "heroData" = some (fixHeroData hd) := by
    rw [hdoc]; exact jget_jset_self _ _ _ hto
  have hdocVer : jget doc "version" =
      jget (if isNumberOpt (jget parsed "version") then parsed
            else jset parsed "version" (.num 1)) "version" := by
    rw [hdoc]; exact jget_jset_ne _ _ _ _ (by decide)
  refine ⟨fixHeroData hd, hdocHero, ?_, ?_, ?_, ?_, ?_, ?_, ?_, ?_, ?_, ?_, ?_, ?_⟩
  · rw [jget_fixHeroData_attacks hd hobj]
    exact ⟨fun hc => by simp [hc], fun hc => by simp [hc]⟩
  · rw [jget_fixHeroData_abilities hd hobj]
    exact ⟨fun hc => by simp [hc], fun hc => by simp [hc]⟩
  · rw [jget_fixHeroData_passives hd hobj]
    exact ⟨fun hc => by simp [hc], fun hc => by simp [hc]⟩
  · rw [jget_fixHeroData_teamUps hd hobj]
    exact ⟨fun hc => by simp [hc], fun hc => by simp [hc]⟩
  · rw [jget_fixHeroData_pages hd hobj]
    exact ⟨fun hc => by simp [hc], fun hc => by simp [hc]⟩
  · rw [jget_fixHeroData_ultimate hd hobj]
    exact ⟨fun hc => by simp [hc], fun hc => by simp [hc]⟩
  · rw [jget_fixHeroData_role hd hobj]
    exact ⟨fun hc => by simp [hc], fun hc => by simp [hc]⟩
  · rw [jget_fixHeroData_difficulty hd hobj]
    exact ⟨fun hc => by simp [hc], fun hc => by simp [hc]⟩
  · rw [jget_fixHeroData_bannerColor hd hobj]
    exact ⟨fun hc => by simp [hc], fun hc => by simp [hc]⟩
  · rw [jget_fixHeroData_portrait hd hobj]
    exact ⟨fun hc => by simp [hc], fun hc => by simp [hc]⟩
  · rw [jget_fixHeroData_heroInfo hd hobj]
    exact ⟨fun hc => by simp [hc], fun hc => by simp [hc]⟩
  · rw [hdocVer]
    constructor
    · intro hc
      rw [if_neg (by simp [hc])]
      exact jget_jset_self _ _ _ hpobj
    · intro hc
      rw [if_pos hc]

/-- Witness for C4 at `sampleParsedDoc`: the missing `attacks` becomes `[]`
and the nonsensical but well-typed `difficulty = 99` passes through. -/
theorem decode_defaults_witness :
    ∃ fixed, jget sampleDecoded "heroData" = some fixed ∧
      jget fixed "attacks" = some (.arr []) ∧
      jget fixed "difficulty" = some (.num 99) := by
  obtain ⟨fixed, h1, hatt, _, _, _, _, _, _, hdiff, _, _, _, _⟩ :=
    decode_defaults sampleParsedDoc sampleDecoded
      (.obj [("name", .str "Hero"), ("difficulty", .num 99)]) (by rfl) (by rfl)
  exact ⟨fixed, h1, hatt.1 (by rfl), hdiff.2 (by rfl)⟩

/-- C10: decoding never touches envelope fields other than `version` and
`heroData` — for every accepted input and every other key, the output field
is exactly the input field (in particular `displaySettings`, `name`,
`exportedAt` and `thumbnail`, even when `displaySettings` is absent, null or
wrong-typed). -/
theorem decode_frame (parsed doc : JsonVal) (k : String)
    (hok : parseTemplateFile (some parsed) = .ok doc)
    (hk1 : k ≠ "version") (hk2 : k ≠ "heroData") :
    jget doc k = jget parsed k := by
  obtain ⟨hd, hhd, hobj, hpobj, hdoc⟩ := parse_ok_inv parsed doc hok
  rw [hdoc, jget_jset_ne _ _ _ _ hk2]
  split
  · rfl
  · exact jget_jset_ne _ _ _ _ hk1

/-- Witness for C10 at `frameParsedDoc`: the wrong-typed `displaySettings`
string survives decoding untouched. -/
theorem decode_frame_witness :
    jget frameDecoded "displaySettings" = jget frameParsedDoc "displaySettings" ∧
    jget frameDecoded "displaySettings" = some (.str "oops") := by
  refine ⟨decode_frame frameParsedDoc frameDecoded "displaySettings"
    (by rfl) (by decide) (by decide), ?_⟩
  rfl

theorem reject_false_of_isObj (h : JsonVal) (ho : isObj h = true) :
    (isFalsy h || !typeofObject h) = false := by
  cases h <;> simp_all [isObj, isFalsy, typeofObject]

theorem fixHeroData_wellTyped (h : JsonVal) (hh : wellTypedHeroData h = true) :
    fixHeroData h = h := by
  simp only [wellTypedHeroData, Bool.and_eq_true, and_assoc] at hh
  obtain ⟨h1, h2, h3, h4, h5, h6, h7, h8, h9, h10, h11, h12, h13⟩ := hh
  simp [fixHeroData, fixField, h2, h3, h4, h5, h6, h7, h8, h9, h10, h11, h12, h13]

/-- C9: encoding a well-typed, complete (heroData, displaySettings) pair as
`downloadTemplate` does and decoding the result with `parseTemplateFile`
succeeds, returns the envelope unchanged, and in particular its `heroData`
is exactly the original hero data. -/
theorem encode_decode_roundtrip (h ds : JsonVal) (ts : String)
    (hh : wellTypedHeroData h = true) (hds : wellTypedDisplaySettings ds = true) :
    parseTemplateFile (some (buildTemplate h ds ts)) = .ok (buildTemplate h ds ts) ∧
    jget (buildTemplate h ds ts) "heroData" = some h := by
  have hobj : isObj h = true := by
    simp only [wellTypedHeroData, Bool.and_eq_true, and_assoc] at hh
    exact hh.1
  have hname : isStringOpt (jget h "name") = true := by
    simp only [wellTypedHeroData, Bool.and_eq_true, and_assoc] at hh
    exact hh.2.1
  have hget : jget (buildTemplate h ds ts) "heroData" = some h := by
    simp [buildTemplate, jget, lookupAssoc]
  have hver : jget (buildTemplate h ds ts) "version" = some (.num 1) := by
    simp [buildTemplate, jget, lookupAssoc]
  refine ⟨?_, hget⟩
  simp only [parseTemplateFile]
  rw [if_neg (by simp [buildTemplate, isFalsy, typeofObject])]
  rw [hget]
  simp only []
  rw [if_neg (by simp [reject_false_of_isObj h hobj]),
      if_neg (by simp [hname])]
  rw [hver]
  simp only [isNumberOpt, if_pos]
  rw [fixHeroData_wellTyped h hh, jset_id _ _ _ hget]

/-- Witness for C9 at a concrete fully-typed hero and settings pair. -/
theorem encode_decode_roundtrip_witness :
    parseTemplateFile (some (buildTemplate sampleHero sampleSettings "2026-02-02")) =
      .ok (buildTemplate sampleHero sampleSettings "2026-02-02") ∧
    jget (buildTemplate sampleHero sampleSettings "2026-02-02") "heroData" =
      some sampleHero :=
  encode_decode_roundtrip sampleHero sampleSettings "2026-02-02" (by rfl) (by rfl)

/- ------------------------------------------------------------------ -/
/- History manager lemmas and claims.                                  -/
/- ------------------------------------------------------------------ -/

theorem lastN_length {T : Type} (n : Nat) (xs : List T) :
    (lastN n xs).length = min xs.length n := by
  simp [lastN]
  omega

theorem lastN_of_le {T : Type} (n : Nat) (xs : List T) (h : xs.length ≤ n) :
    lastN n xs = xs := by
  simp [lastN, Nat.sub_eq_zero_of_le h]

/-- C7: committing a candidate whose serialization equals that of `present`
is a complete no-op: the whole manager state — history triple, saved-state
ref, version counter and pending timer — is unchanged, so no timer is
cleared or scheduled and no bookkeeping happens. -/
theorem commit_equal_noop {T : Type} [DecidableEq T] (s : HistSt T) (v : T)
    (h : v = s.present) : commit v s = s := by
  simp [commit, h]

/-- Witness for C7 at a concrete state. -/
theorem commit_equal_noop_witness :
    commit 0 (initHist (0 : Nat)) = initHist 0 :=
  commit_equal_noop (initHist 0) 0 rfl

/-- C8: the history operations are total functions (no operation can raise),
and the underflow cases are silent no-ops: `undo` with empty `past` and
`redo` with empty `future` leave the whole history triple (`past`,
`present`, `future`) unchanged. -/
theorem underflow_noop {T : Type} (s : HistSt T) :
    (s.past = [] → histTriple (undo s) = histTriple s) ∧
    (s.future = [] → histTriple (redo s) = histTriple s) := by
  constructor
  · intro h
    simp [undo, h, histTriple]
  · intro h
    simp [redo, h, histTriple]

/-- Witness for C8 at a concrete state with both stacks empty. -/
theorem underflow_noop_witness :
    histTriple (undo (initHist (3 : Nat))) = histTriple (initHist 3) ∧
    histTriple (redo (initHist (3 : Nat))) = histTriple (initHist 3) :=
  ⟨(underflow_noop (initHist 3)).1 rfl, (underflow_noop (initHist 3)).2 rfl⟩

theorem reachable_bound {T : Type} [DecidableEq T] (s0 : T) (s : HistSt T)
    (h : Reachable s0 s) :
    s.past.length + s.future.length ≤ MAX_HISTORY_SIZE := by
  induction h with
  | init => simp [initHist, MAX_HISTORY_SIZE]
  | step e s1 h1 ih =>
    cases e with
    | commit v =>
      simp only [histStep, commit]
      split
      · exact ih
      · split
        · show (lastN MAX_HISTORY_SIZE (s1.past ++ [s1.present])).length +
            ([] : List T).length ≤ MAX_HISTORY_SIZE
          rw [lastN_length]
          simp only [List.length_nil, MAX_HISTORY_SIZE]
          omega
        · show s1.past.length + ([] : List T).length ≤ MAX_HISTORY_SIZE
          simp only [List.length_nil]
          omega
    | undo =>
      simp only [histStep, undo]
      cases hl : s1.past.getLast? with
      | none => simpa using ih
      | some prev =>
        have hne : s1.past ≠ [] := by
          intro hnil
          rw [hnil] at hl
          exact Option.noConfusion hl
        have hpos : 0 < s1.past.length := List.length_pos.mpr hne
        show s1.past.dropLast.length + (s1.present :: s1.future).length ≤ MAX_HISTORY_SIZE
        simp only [List.length_dropLast, List.length_cons]
        omega
    | redo =>
      simp only [histStep, redo]
      cases hf : s1.future with
      | nil =>
        rw [hf] at ih
        simpa using ih
      | cons next rest =>
        rw [hf] at ih
        simp only [List.length_cons] at ih
        show (s1.past ++ [s1.present]).length + rest.length ≤ MAX_HISTORY_SIZE
        simp only [List.length_append, List.length_singleton]
        omega
    | clear =>
      simp [histStep, clearHistory, MAX_HISTORY_SIZE]
    | fire =>
      simp only [histStep, fireTimer]
      cases hp : s1.pending with
      | none => exact ih
      | some pr =>
        obtain ⟨vv, val⟩ := pr
        simp only [fireBody]
        split <;> simpa using ih

/-- C6: in every state reachable from the initial state by commits, undos,
redos, clears and timer firings, `past` and `future` each hold at most 50
entries (via the invariant that their combined size never exceeds 50, which
covers `redo` appending to `past` without trimming), and every
state-changing commit leaves `future` empty. -/
theorem reachable_invariant {T : Type} [DecidableEq T] (s0 : T) (s : HistSt T)
    (h : Reachable s0 s) :
    s.past.length ≤ 50 ∧ s.future.length ≤ 50 ∧
    ∀ v, v ≠ s.present → (commit v s).future = [] := by
  have hb := reachable_bound s0 s h
  simp only [MAX_HISTORY_SIZE] at hb
  refine ⟨by omega, by omega, ?_⟩
  intro v hv
  simp only [commit, if_neg hv]
  split <;> rfl

/-- Witness for C6 at the initial state. -/
theorem reachable_invariant_witness :
    (initHist (0 : Nat)).past.length ≤ 50 ∧ (initHist (0 : Nat)).future.length ≤ 50 ∧
    ∀ v, v ≠ (initHist (0 : Nat)).present → (commit v (initHist 0)).future = [] :=
  reachable_invariant 0 (initHist 0) Reachable.init

/-- A burst of commits inside the grouping window (each state-changing, each
avoiding the last-saved snapshot) only moves `present` and clears `future`;
`past` is untouched. -/
theorem run_inwindow {T : Type} [DecidableEq T] (ws : List T) (s : HistSt T)
    (hne : s.present ≠ s.lastSaved) (hfut : s.future = [])
    (hchain : List.Chain' (fun a b => a ≠ b) (s.present :: ws))
    (hfresh : ∀ w ∈ ws, w ≠ s.lastSaved) :
    (runEvents (ws.map HistEv.commit) s).past = s.past ∧
    (runEvents (ws.map HistEv.commit) s).present = ws.getLastD s.present ∧
    (runEvents (ws.map HistEv.commit) s).future = [] := by
  induction ws generalizing s with
  | nil => exact ⟨rfl, rfl, hfut⟩
  | cons w ws ih =>
    have hparts := List.chain'_cons.mp hchain
    have hwne : w ≠ s.present := (hparts.1).symm
    have hcommit : commit w s =
        { past := s.past, present := w, future := [],
          lastSaved := s.lastSaved, version := s.version,
          pending := some (s.version, w) } := by
      simp [commit, hwne, hne]
    have hstep : runEvents ((w :: ws).map HistEv.commit) s =
        runEvents (ws.map HistEv.commit) (commit w s) := rfl
    rw [hstep, hcommit]
    obtain ⟨hp, hpr, hf⟩ := ih
      { past := s.past, present := w, future := [],
        lastSaved := s.lastSaved, version := s.version,
        pending := some (s.version, w) }
      (hfresh w (List.mem_cons_self w ws)) rfl hparts.2
      (fun x hx => hfresh x (List.mem_cons_of_mem w hx))
    exact ⟨hp, by rw [hpr, List.getLastD_cons], hf⟩

/-- Counterexample to C1 as stated: from initial state 0, the three commits
1, 0, 2 are all state-changing (consecutive values differ), all fall inside
one grouping window (no timer fires, no undo), yet the group adds two
entries to `past`, not one: the middle commit returns to the last-saved
snapshot, so the window-detection test `present == lastSaved` misfires and
the third commit pushes again. -/
theorem grouped_commits_cex :
    List.Chain' (fun a b => a ≠ b) [0, 1, 0, 2] ∧
    (runEvents ([1, 0, 2].map HistEv.commit) (initHist (0 : Nat))).past = [0, 0] ∧
    ([0, 0] : List Nat).length ≠ 1 := by
  refine ⟨by simp [List.chain'_cons], by decide, by decide⟩

/-- C1 amended: a burst of two or more state-changing commits inside one
grouping window (no timer firing, no undo/redo), in which additionally no
committed value serializes equal to the initial (last-saved) state, adds
exactly one entry to `past` — the pre-burst `present` — and leaves
`present` at the last committed value with `future` empty. -/
theorem grouped_commits_amended {T : Type} [DecidableEq T] (s0 : T) (vs : List T)
    (hlen : 2 ≤ vs.length)
    (hchain : List.Chain' (fun a b => a ≠ b) (s0 :: vs))
    (hfresh : ∀ v ∈ vs, v ≠ s0) :
    (runEvents (vs.map HistEv.commit) (initHist s0)).past = [s0] ∧
    (runEvents (vs.map HistEv.commit) (initHist s0)).present = vs.getLastD s0 ∧
    (runEvents (vs.map HistEv.commit) (initHist s0)).future = [] := by
  cases vs with
  | nil => simp at hlen
  | cons v rest =>
    have hparts := List.chain'_cons.mp hchain
    have hv : v ≠ s0 := hfresh v (List.mem_cons_self v rest)
    have hcommit : commit v (initHist s0) =
        { past := [s0], present := v, future := [],
          lastSaved := s0, version := 0, pending := some (0, v) } := by
      simp [commit, initHist, hv, lastN, MAX_HISTORY_SIZE]
    have hstep : runEvents ((v :: rest).map HistEv.commit) (initHist s0) =
        runEvents (rest.map HistEv.commit) (commit v (initHist s0)) := rfl
    rw [hstep, hcommit]
    obtain ⟨hp, hpr, hf⟩ := run_inwindow rest
      { past := [s0], present := v, future := [],
        lastSaved := s0, version := 0, pending := some (0, v) }
      hv rfl hparts.2
      (fun x hx => hfresh x (List.mem_cons_of_mem v hx))
    exact ⟨hp, by rw [hpr, List.getLastD_cons], hf⟩

/-- Witness for the amended C1 at a concrete burst. -/
theorem grouped_commits_amended_witness :
    (runEvents ([1, 2, 3].map HistEv.commit) (initHist (0 : Nat))).past = [0] ∧
    (runEvents ([1, 2, 3].map HistEv.commit) (initHist (0 : Nat))).present =
      ([1, 2, 3] : List Nat).getLastD 0 ∧
    (runEvents ([1, 2, 3].map HistEv.commit) (initHist (0 : Nat))).future = [] :=
  grouped_commits_amended 0 [1, 2, 3] (by decide)
    (by simp [List.chain'_cons]) (by decide)

/-- C2: after an undo from a state with non-empty `past` — even one taken
while a grouping window is open with its timer still pending — the next
state-changing commit always pushes the pre-commit `present` onto `past`
(a fresh undo step), never merging into the group open before the undo.
This holds even if a stale scheduled timer callback (captured at any version
up to the pre-undo one) runs between the undo and the commit: the version
counter bumped by `undo` invalidates it. -/
theorem commit_after_undo_pushes {T : Type} [DecidableEq T] (s : HistSt T)
    (v val : T) (vv : Nat)
    (hpast : s.past ≠ [])
    (hvv : vv ≤ s.version)
    (hne : v ≠ (undo s).present) :
    (commit v (fireBody vv val (undo s))).past =
      lastN MAX_HISTORY_SIZE ((undo s).past ++ [(undo s).present]) ∧
    (commit v (fireBody vv val (undo s))).present = v ∧
    (commit v (fireBody vv val (undo s))).future = [] := by
  obtain ⟨prev, hl⟩ : ∃ prev, s.past.getLast? = some prev := by
    cases hgl : s.past.getLast? with
    | none => exact absurd (List.getLast?_eq_none_iff.mp hgl) hpast
    | some prev => exact ⟨prev, rfl⟩
  have hundo : undo s =
      { past := s.past.dropLast, present := prev,
        future := s.present :: s.future,
        lastSaved := prev, version := s.version + 1, pending := none } := by
    simp [undo, hl]
  have hfb : fireBody vv val (undo s) = undo s := by
    rw [hundo]
    simp only [fireBody]
    rw [if_neg (by omega)]
  rw [hfb, hundo]
  rw [hundo] at hne
  simp only at hne
  simp [commit, hne]

/-- Witness for C2 at a concrete mid-window state with a stale callback. -/
theorem commit_after_undo_pushes_witness :
    (commit 12 (fireBody 0 99 (undo
        (⟨[10], 11, [], 10, 0, some (0, 11)⟩ : HistSt Nat)))).past =
      lastN MAX_HISTORY_SIZE
        ((undo (⟨[10], 11, [], 10, 0, some (0, 11)⟩ : HistSt Nat)).past ++
         [(undo (⟨[10], 11, [], 10, 0, some (0, 11)⟩ : HistSt Nat)).present]) ∧
    (commit 12 (fireBody 0 99 (undo
        (⟨[10], 11, [], 10, 0, some (0, 11)⟩ : HistSt Nat)))).present = 12 ∧
    (commit 12 (fireBody 0 99 (undo
        (⟨[10], 11, [], 10, 0, some (0, 11)⟩ : HistSt Nat)))).future = [] :=
  commit_after_undo_pushes (⟨[10], 11, [], 10, 0, some (0, 11)⟩ : HistSt Nat)
    12 99 0 (by decide) (by decide) (by decide)

/-- One spaced step: a state-changing commit from a synced state (present
equals the last-saved snapshot) followed by the timer firing.  The commit
pushes `present`, and the callback — whose captured version is still
current — syncs the snapshot to the committed value. -/
theorem spaced_step {T : Type} [DecidableEq T] (w : T) (s : HistSt T)
    (hsync : s.present = s.lastSaved) (hwne : w ≠ s.present) :
    fireTimer (commit w s) =
      { past := lastN MAX_HISTORY_SIZE (s.past ++ [s.present]),
        present := w, future := [], lastSaved := w,
        version := s.version, pending := none } := by
  have hcommit : commit w s =
      { past := lastN MAX_HISTORY_SIZE (s.past ++ [s.present]),
        present := w, future := [], lastSaved := s.lastSaved,
        version := s.version, pending := some (s.version, w) } := by
    unfold commit
    rw [if_neg hwne, if_pos hsync]
  rw [hcommit]
  simp [fireTimer, fireBody]

/-- Length of `past` after a nonempty run of spaced commits from a synced
state: every commit pushes, trimmed at 50. -/
theorem run_spaced_len {T : Type} [DecidableEq T] (ws : List T) (s : HistSt T)
    (hsync : s.present = s.lastSaved)
    (hchain : List.Chain' (fun a b => a ≠ b) (s.present :: ws))
    (hws : ws ≠ []) :
    (runEvents (spacedEvents ws) s).past.length =
      min (s.past.length + ws.length) 50 := by
  induction ws generalizing s with
  | nil => exact absurd rfl hws
  | cons w ws ih =>
    have hparts := List.chain'_cons.mp hchain
    have hwne : w ≠ s.present := (hparts.1).symm
    have hstep : runEvents (spacedEvents (w :: ws)) s =
        runEvents (spacedEvents ws) (fireTimer (commit w s)) := rfl
    rw [hstep, spaced_step w s hsync hwne]
    by_cases hws2 : ws = []
    · subst hws2
      show (lastN MAX_HISTORY_SIZE (s.past ++ [s.present])).length =
        min (s.past.length + [w].length) 50
      rw [lastN_length]
      simp only [List.length_append, List.length_singleton, List.length_cons,
        List.length_nil, MAX_HISTORY_SIZE]
    · rw [ih _ rfl hparts.2 hws2]
      rw [lastN_length]
      simp only [List.length_append, List.length_singleton, List.length_cons,
        List.length_nil, MAX_HISTORY_SIZE]
      omega

/-- Exact shape of the state after a run of spaced commits from a synced
state, when no trimming occurs: the whole prefix is recorded in `past`. -/
theorem run_spaced_exact {T : Type} [DecidableEq T] (ws : List T) (s : HistSt T)
    (hsync : s.present = s.lastSaved) (hfut : s.future = [])
    (hchain : List.Chain' (fun a b => a ≠ b) (s.present :: ws))
    (hsize : s.past.length + ws.length ≤ 50) :
    (runEvents (spacedEvents ws) s).past = s.past ++ (s.present :: ws).dropLast ∧
    (runEvents (spacedEvents ws) s).present = ws.getLastD s.present ∧
    (runEvents (spacedEvents ws) s).future = [] := by
  induction ws generalizing s with
  | nil => exact ⟨by simp [spacedEvents, runEvents], rfl, hfut⟩
  | cons w ws ih =>
    have hparts := List.chain'_cons.mp hchain
    have hwne : w ≠ s.present := (hparts.1).symm
    have hstep : runEvents (spacedEvents (w :: ws)) s =
        runEvents (spacedEvents ws) (fireTimer (commit w s)) := rfl
    have htrim : lastN MAX_HISTORY_SIZE (s.past ++ [s.present]) = s.past ++ [s.present] := by
      apply lastN_of_le
      simp only [List.length_append, List.length_singleton, MAX_HISTORY_SIZE]
      simp only [List.length_cons] at hsize
      omega
    rw [hstep, spaced_step w s hsync hwne, htrim]
    obtain ⟨hp, hpr, hf⟩ := ih
      { past := s.past ++ [s.present], present := w, future := [],
        lastSaved := w, version := s.version, pending := none }
      rfl rfl hparts.2
      (by
        simp only [List.length_append, List.length_singleton]
        simp only [List.length_cons] at hsize
        omega)
    refine ⟨?_, by rw [hpr, List.getLastD_cons], hf⟩
    rw [hp]
    simp [List.dropLast]

/-- Undoing as many times as `past` has entries drains `past` and restores
the oldest recorded state. -/
theorem undo_times {T : Type} [DecidableEq T] (p : List T) :
    ∀ (s : HistSt T), s.past = p →
      (runEvents (List.replicate p.length HistEv.undo) s).present = p.headD s.present ∧
      (runEvents (List.replicate p.length HistEv.undo) s).past = [] := by
  induction p using List.reverseRecOn with
  | nil =>
    intro s hs
    exact ⟨rfl, hs⟩
  | append_singleton q a ih =>
    intro s hs
    have hlen : (q ++ [a]).length = q.length + 1 := by simp
    have hundo : undo s =
        { past := q, present := a, future := s.present :: s.future,
          lastSaved := a, version := s.version + 1, pending := none } := by
      simp [undo, hs, List.getLast?_concat, List.dropLast_concat]
    have hstep : runEvents (List.replicate (q ++ [a]).length HistEv.undo) s =
        runEvents (List.replicate q.length HistEv.undo) (undo s) := by
      rw [hlen, List.replicate_succ]
      rfl
    rw [hstep, hundo]
    obtain ⟨h1, h2⟩ := ih
      { past := q, present := a, future := s.present :: s.future,
        lastSaved := a, version := s.version + 1, pending := none } rfl
    refine ⟨?_, h2⟩
    rw [h1]
    cases q <;> simp

set_option maxRecDepth 100000 in
/-- Counterexample to C5 as stated: fifty-one distinct spaced commits
(values 1..51, all distinct from the initial 0, each beyond the debounce
interval) followed by fifty-one undos do NOT return `present` to the
original state: the bound of 50 trimmed the oldest entry, so `present` ends
at 1, the first committed value, not at 0. -/
theorem spaced_commits_cex :
    ((0 : Nat) :: (List.range 51).map (fun i => (i + 1 : Nat))).Nodup ∧
    spacedCexRun.present = 1 ∧ spacedCexRun.present ≠ 0 :=
  ⟨by decide, by decide, by decide⟩

/-- C5 amended: for N distinct spaced commits (timer firing between
consecutive commits, no undo/redo interleaved), `past` ends with length
`min N 50` and `canUndo` holds; and provided N is at most 50, undoing N
times returns `present` to the original initial state and empties `past`
(so `canUndo` becomes false).  For N above 50 the bound trims history, so
only the last 50 states are recoverable. -/
theorem spaced_commits_amended {T : Type} [DecidableEq T] (s0 : T) (vs : List T)
    (hnd : (s0 :: vs).Nodup) (hvs : vs ≠ []) :
    (runEvents (spacedEvents vs) (initHist s0)).past.length = min vs.length 50 ∧
    (runEvents (spacedEvents vs) (initHist s0)).past ≠ [] ∧
    (vs.length ≤ 50 →
      (runEvents (List.replicate vs.length HistEv.undo)
        (runEvents (spacedEvents vs) (initHist s0))).present = s0 ∧
      (runEvents (List.replicate vs.length HistEv.undo)
        (runEvents (spacedEvents vs) (initHist s0))).past = []) := by
  have hchain : List.Chain' (fun a b => a ≠ b) (s0 :: vs) := List.Pairwise.chain' hnd
  have hpos : 0 < vs.length := List.length_pos.mpr hvs
  have h1 : (runEvents (spacedEvents vs) (initHist s0)).past.length =
      min vs.length 50 := by
    have := run_spaced_len vs (initHist s0) rfl hchain hvs
    simpa [initHist] using this
  have h2 : (runEvents (spacedEvents vs) (initHist s0)).past ≠ [] := by
    intro hnil
    rw [hnil] at h1
    simp at h1
    omega
  refine ⟨h1, h2, ?_⟩
  intro h50
  obtain ⟨hp, hpr, hf⟩ := run_spaced_exact vs (initHist s0) rfl rfl hchain
    (by simp [initHist]; omega)
  have hpast : (runEvents (spacedEvents vs) (initHist s0)).past = s0 :: vs.dropLast := by
    rw [hp]
    cases vs with
    | nil => exact absurd rfl hvs
    | cons v rest => simp [initHist, List.dropLast]
  have hplen : (s0 :: vs.dropLast).length = vs.length := by
    simp [List.length_dropLast]
    omega
  obtain ⟨h3, h4⟩ := undo_times (s0 :: vs.dropLast)
    (runEvents (spacedEvents vs) (initHist s0)) hpast
  rw [hplen] at h3 h4
  exact ⟨by rw [h3]; rfl, h4⟩

/-- Witness for the amended C5 at three spaced commits. -/
theorem spaced_commits_amended_witness :
    (runEvents (spacedEvents [1, 2, 3]) (initHist (0 : Nat))).past.length =
      min ([1, 2, 3] : List Nat).length 50 ∧
    (runEvents (spacedEvents [1, 2, 3]) (initHist (0 : Nat))).past ≠ [] ∧
    (runEvents (List.replicate ([1, 2, 3] : List Nat).length HistEv.undo)
      (runEvents (spacedEvents [1, 2, 3]) (initHist (0 : Nat)))).present = 0 ∧
    (runEvents (List.replicate ([1, 2, 3] : List Nat).length HistEv.undo)
      (runEvents (spacedEvents [1, 2, 3]) (initHist (0 : Nat)))).past = [] := by
  obtain ⟨a, b, c⟩ := spaced_commits_amended 0 [1, 2, 3] (by decide) (by decide)
  obtain ⟨d, e⟩ := c (by decide)
  exact ⟨a, b, d, e⟩

end MarvelRivals
